/-
  Verification development for the standx_maker_hedger repository.

  The definitions below are shallow embeddings of the Python source:
    * `on_ws_order_update`, `mark_as_close_order`, `cleanup_processed_fills`
      embed `StandXMarketMaker` from standx_client.py;
    * `can_open_position`, `force_stop`, `update_pnl`, `check_emergency_stop`
      embed `RiskManager` from risk_manager.py;
    * `close_order_price`, `place_close_order`, `handle_standx_order_fill`,
      `check_and_manage_close_orders` embed `StandXMakerHedger` from main.py;
    * `place_hedge_order_steps` embeds the step structure of
      `LighterHedger.place_hedge_order` from lighter_client.py.

  Quantities that are Python `float`/`Decimal` are modelled as ℚ; order
  identifiers are `String`; Python dicts and sets are association lists and
  membership lists.  Network calls are modelled as environment records whose
  fields carry the values those calls would return, so each handler becomes a
  pure function from (state, event, environment) to (state, emitted actions).
-/
import Mathlib

set_option maxRecDepth 10000

namespace StandXHedger

/-- Order tracking information (`OrderInfo` in standx_client.py). -/
structure OrderInfo where
  orderId : String
  side : String
  price : ℚ
  qty : ℚ
  status : String
  clOrdId : Option String
deriving DecidableEq, Repr

/-- A decoded WebSocket order-update message, after the field extraction at the
top of `_on_ws_order_update` (standx_client.py lines 357-370): `orderId` is the
string-converted `id`/`order_id` (none when both are missing), `status` is the
lowercased status, and `filledQty` is the value of the
`fill_qty`/`filled_qty`/`filled_size` fallback chain. -/
structure WsEvent where
  orderId : Option String
  status : String
  side : String
  price : ℚ
  qty : ℚ
  filledQty : ℚ
deriving DecidableEq, Repr

/-- The payload passed to the registered order-update handler when a fill
triggers a hedge (standx_client.py lines 408-414). -/
structure HedgeCall where
  orderId : String
  side : String
  price : ℚ
  qty : ℚ
  status : String
deriving DecidableEq, Repr

def mkHedgeCall (oid : String) (e : WsEvent) : HedgeCall :=
  ⟨oid, e.side, e.price, e.filledQty, "filled"⟩

/-- The mutable fields of `StandXMarketMaker` that `_on_ws_order_update`
reads or writes: `active_orders` (a dict), `processed_fills` and
`close_order_ids` (sets), and whether `_order_update_handler` is registered. -/
structure SXState where
  activeOrders : List (String × OrderInfo)
  processedFills : List String
  closeOrderIds : List String
  handlerRegistered : Bool
deriving DecidableEq, Repr

/-- Dict lookup: `self.active_orders[order_id]`. -/
def lookupOrder : List (String × OrderInfo) → String → Option OrderInfo
  | [], _ => none
  | (k, v) :: rest, oid => if k = oid then some v else lookupOrder rest oid

/-- Dict deletion: `del self.active_orders[order_id]`. -/
def removeKey : List (String × OrderInfo) → String → List (String × OrderInfo)
  | [], _ => []
  | (k, v) :: rest, oid =>
    if k = oid then removeKey rest oid else (k, v) :: removeKey rest oid

/-- Set removal: `self.close_order_ids.discard(order_id)`. -/
def removeAll : List String → String → List String
  | [], _ => []
  | x :: rest, oid => if x = oid then removeAll rest oid else x :: removeAll rest oid

/-- The in-place update `order_info.status = status` on the tracked entry. -/
def setStatus : List (String × OrderInfo) → String → String → List (String × OrderInfo)
  | [], _, _ => []
  | (k, v) :: rest, oid, stat =>
    if k = oid then (k, { v with status := stat }) :: setStatus rest oid stat
    else (k, v) :: setStatus rest oid stat

/-- `StandXMarketMaker._on_ws_order_update` (standx_client.py lines 354-428):
ignore messages without an id or for untracked orders; record the new status;
on a positive filled quantity take the fill path (duplicate-fill guard via
`processed_fills`, close-order check via `close_order_ids`, otherwise trigger
the hedge handler), and only on a zero-fill cancelled/rejected status remove
the order as cancelled.  Returns the new state and the hedge-handler
invocations scheduled by this message. -/
def on_ws_order_update (st : SXState) (e : WsEvent) : SXState × List HedgeCall :=
  match e.orderId with
  | none => (st, [])
  | some oid =>
    match lookupOrder st.activeOrders oid with
    | none => (st, [])
    | some _ =>
      let updated := setStatus st.activeOrders oid e.status
      if 0 < e.filledQty then
        if oid ∈ st.processedFills then
          ({ st with activeOrders := removeKey updated oid }, [])
        else if oid ∈ st.closeOrderIds then
          ({ st with activeOrders := removeKey updated oid,
                     processedFills := oid :: st.processedFills,
                     closeOrderIds := removeAll st.closeOrderIds oid }, [])
        else
          ({ st with activeOrders := removeKey updated oid,
                     processedFills := oid :: st.processedFills },
           if st.handlerRegistered then [mkHedgeCall oid e] else [])
      else if e.status = "cancelled" ∨ e.status = "canceled" ∨ e.status = "rejected" then
        ({ st with activeOrders := removeKey updated oid,
                   closeOrderIds := removeAll st.closeOrderIds oid }, [])
      else
        ({ st with activeOrders := updated }, [])

/-- `StandXMarketMaker.mark_as_close_order` (standx_client.py lines 434-443). -/
def mark_as_close_order (st : SXState) (oid : String) : SXState :=
  { st with closeOrderIds := oid :: st.closeOrderIds }

/-- Deliver a sequence of WebSocket order updates to the callback, collecting
all hedge-handler invocations. -/
def processEvents : SXState → List WsEvent → SXState × List HedgeCall
  | st, [] => (st, [])
  | st, e :: es =>
    let r := on_ws_order_update st e
    let r2 := processEvents r.1 es
    (r2.1, r.2 ++ r2.2)

/-- Number of hedge-handler invocations carrying a given venue order id. -/
def countCallsFor (oid : String) (cs : List HedgeCall) : ℕ :=
  cs.countP (fun c => decide (c.orderId = oid))

/-- The `processed_fills` cleanup step of `StandXMarketMaker.sync_open_orders`
(standx_client.py lines 591-597): the argument is the identifier sequence in
the order Python happens to enumerate the set (`list(self.processed_fills)`),
and `[-500:]` keeps the last 500 entries of that enumeration.  Identifiers are
abstracted as ℕ. -/
def cleanup_processed_fills (enumOrder : List ℕ) : List ℕ :=
  if 1000 < enumOrder.length then enumOrder.drop (enumOrder.length - 500)
  else enumOrder

/-- The 500 most recent identifiers of an insertion-ordered history (what the
spec's oldest-first eviction would retain). -/
def mostRecentHalf (insertionOrder : List ℕ) : List ℕ :=
  insertionOrder.drop (insertionOrder.length - 500)

/- ---------------------------------------------------------------------
   risk_manager.py: RiskManager
   --------------------------------------------------------------------- -/

/-- The fields of `RiskManager` used by the fill path (risk_manager.py).  The
wall-clock daily reset (`reset_daily_counters`) is not modelled: it only zeroes
`daily_pnl` on a date change. -/
structure RiskState where
  maxPositionSize : ℚ
  maxDailyLoss : ℚ
  emergencyStopLoss : ℚ
  dailyPnl : ℚ
  totalPnl : ℚ
  tradeCount : ℕ
  emergencyStop : Bool
deriving DecidableEq, Repr

/-- `RiskManager.check_emergency_stop` (risk_manager.py lines 72-82). -/
def check_emergency_stop (r : RiskState) : RiskState :=
  let r1 := if r.dailyPnl ≤ -r.maxDailyLoss then { r with emergencyStop := true } else r
  if r1.totalPnl ≤ -r1.emergencyStopLoss then { r1 with emergencyStop := true } else r1

/-- `RiskManager.update_pnl` (risk_manager.py lines 55-70). -/
def update_pnl (r : RiskState) (pnl : ℚ) : RiskState :=
  check_emergency_stop
    { r with dailyPnl := r.dailyPnl + pnl, totalPnl := r.totalPnl + pnl,
             tradeCount := r.tradeCount + 1 }

/-- `RiskManager.can_open_position` (risk_manager.py lines 84-108). -/
def can_open_position (r : RiskState) (positionSize : ℚ) : Bool :=
  if r.emergencyStop then false
  else if r.maxPositionSize < |positionSize| then false
  else if r.dailyPnl ≤ -r.maxDailyLoss then false
  else true

/-- `RiskManager.force_stop` (risk_manager.py lines 168-171). -/
def force_stop (r : RiskState) : RiskState :=
  { r with emergencyStop := true }

/- ---------------------------------------------------------------------
   main.py: StandXMakerHedger
   --------------------------------------------------------------------- -/

/-- Strategy settings read from config in `StandXMakerHedger.__init__`
(main.py lines 40-51). -/
structure BotConfig where
  hedgeImmediately : Bool
  closeSpreadPct : ℚ
  closeUpdateThreshold : ℚ
deriving DecidableEq, Repr

/-- `self.max_close_attempts = 10` (main.py line 75), a hardcoded ceiling. -/
def max_close_attempts : ℕ := 10

/-- Python `int()` on a number: truncation toward zero. -/
def pyTrunc (q : ℚ) : ℚ :=
  if 0 ≤ q then (⌊q⌋ : ℚ) else (⌈q⌉ : ℚ)

/-- The close-order price computation in `place_close_order` (main.py lines
149-157): offset the mark price by `mark * close_spread_pct` downward for a
buy close and upward for a sell close, then truncate with `int(...)`. -/
def close_order_price (side : String) (markPrice closeSpreadPct : ℚ) : ℚ :=
  let closeSpread := markPrice * closeSpreadPct
  if side = "buy" then pyTrunc (markPrice - closeSpread)
  else pyTrunc (markPrice + closeSpread)

/-- The close-order tracking fields of `StandXMakerHedger` (main.py lines
57-61). -/
structure CloseTracking where
  closeOrderId : Option String
  closeOrderClOrdId : Option String
  closeOrderPrice : Option ℚ
  closeOrderSide : Option String
deriving DecidableEq, Repr

/-- All four tracking fields set to `None` (main.py lines 270-273, 362-365). -/
def CloseTracking.cleared : CloseTracking := ⟨none, none, none, none⟩

/-- Python truthiness of an optional string (`if self.close_order_cl_ord_id:`). -/
def optStrTruthy : Option String → Bool
  | none => false
  | some s => s ≠ ""

/-- Externally visible actions emitted by the main.py controller: hedge
placements on Lighter, StandX order placements, close-order marking, StandX
order cancellation, and invocations of `close_lighter_hedge`. -/
inductive MAction where
  | hedge (side : String) (qty : ℚ)
  | placeOrder (side : String) (price : ℚ) (qty : ℚ)
  | markCloseOrder (orderId : String)
  | cancelOrder (orderId : String)
  | closeLighterHedge (pos : ℚ)
deriving DecidableEq, Repr

def MAction.isPlaceOrder : MAction → Bool
  | .placeOrder _ _ _ => true
  | _ => false

def MAction.isHedge : MAction → Bool
  | .hedge _ _ => true
  | _ => false

/-- The order id and client order id returned by a successful
`standx.place_order` call. -/
structure PlacedOrder where
  orderId : String
  clOrdId : String
deriving DecidableEq, Repr

/-- Environment of one `place_close_order` call: the mark price its
`get_ticker()` returns and the result of its `standx.place_order` call
(`none` = placement failed). -/
structure PlaceCloseEnv where
  markPrice : ℚ
  placeResult : Option PlacedOrder
deriving DecidableEq, Repr

/-- `StandXMakerHedger.place_close_order` (main.py lines 132-177): abort on a
non-positive mark price, otherwise place a maker order at the offset price; on
success mark it as a close order and record cl_ord_id, price and side in the
tracking fields (`close_order_id` itself is left unchanged — it is only set
later from a sync).  No check of existing tracking is performed. -/
def place_close_order (cfg : BotConfig) (tr : CloseTracking) (env : PlaceCloseEnv)
    (side : String) (quantity : ℚ) : CloseTracking × List MAction :=
  if env.markPrice ≤ 0 then (tr, [])
  else
    let closePrice := close_order_price side env.markPrice cfg.closeSpreadPct
    match env.placeResult with
    | some o =>
      ({ tr with closeOrderClOrdId := some o.clOrdId,
                 closeOrderPrice := some closePrice,
                 closeOrderSide := some side },
       [MAction.placeOrder side closePrice quantity, MAction.markCloseOrder o.orderId])
    | none => (tr, [MAction.placeOrder side closePrice quantity])

/-- The fill payload handed to `handle_standx_order_fill` (main.py lines
88-91). -/
structure FillData where
  orderId : String
  side : String
  qty : ℚ
  price : ℚ
deriving DecidableEq, Repr

/-- Environment of one `handle_standx_order_fill` call: the result of the
`lighter.place_hedge_order` call and the environment of the nested
`place_close_order` call. -/
structure FillEnv where
  hedgeSuccess : Bool
  closeEnv : PlaceCloseEnv
deriving DecidableEq, Repr

/-- `StandXMakerHedger.handle_standx_order_fill` (main.py lines 80-130): risk
check first (rejection forces emergency stop and returns), then — when
`hedge_immediately` is configured — a single hedge attempt on the opposite
side; on success `update_pnl(0.0)` and an unconditional `place_close_order`;
on failure a forced emergency stop.  Returns the new risk state, the new close
tracking, and the emitted actions. -/
def handle_standx_order_fill (cfg : BotConfig) (risk : RiskState) (tr : CloseTracking)
    (d : FillData) (env : FillEnv) : RiskState × CloseTracking × List MAction :=
  if ¬ can_open_position risk d.qty then
    (force_stop risk, tr, [])
  else
    let hedgeSide := if d.side = "buy" then "sell" else "buy"
    if cfg.hedgeImmediately then
      if env.hedgeSuccess then
        (update_pnl risk 0,
         (place_close_order cfg tr env.closeEnv hedgeSide d.qty).1,
         MAction.hedge hedgeSide d.qty :: (place_close_order cfg tr env.closeEnv hedgeSide d.qty).2)
      else
        (force_stop risk, tr, [MAction.hedge hedgeSide d.qty])
    else
      (risk, tr, [])

/-- The key `pos_key = f"{lighter_pos:.5f}"` (main.py line 288): the position
formatted to five decimal places.  Modelled as the integer of hundred-thousandths
the formatting rounds to, which identifies keys exactly as the format string
does away from ties. -/
def posKey (q : ℚ) : ℤ := round (q * 100000)

/-- `self.lighter_close_attempts.get(pos_key, 0)` (main.py line 295). -/
def lookupAttempts : List (ℤ × ℕ) → ℤ → ℕ
  | [], _ => 0
  | (k, n) :: rest, key => if k = key then n else lookupAttempts rest key

/-- `self.lighter_close_attempts[pos_key] = n` (main.py line 305). -/
def setAttempts : List (ℤ × ℕ) → ℤ → ℕ → List (ℤ × ℕ)
  | [], key, n => [(key, n)]
  | (k, m) :: rest, key, n =>
    if k = key then (k, n) :: rest else (k, m) :: setAttempts rest key n

/-- `del self.lighter_close_attempts[pos_key]` (main.py line 316). -/
def removeAttempts : List (ℤ × ℕ) → ℤ → List (ℤ × ℕ)
  | [], _ => []
  | (k, m) :: rest, key =>
    if k = key then removeAttempts rest key else (k, m) :: removeAttempts rest key

/-- `self.lighter_close_blocked.remove(pos_key)` (main.py line 318). -/
def removeBlocked : List ℤ → ℤ → List ℤ
  | [], _ => []
  | k :: rest, key => if k = key then removeBlocked rest key else k :: removeBlocked rest key

/-- The mutable controller state touched by `check_and_manage_close_orders`:
the close-order tracking fields plus the loop-protection bookkeeping
`lighter_close_attempts` (a dict) and `lighter_close_blocked` (a set),
main.py lines 57-76. -/
structure MainState where
  tracking : CloseTracking
  closeAttempts : List (ℤ × ℕ)
  blocked : List ℤ
deriving DecidableEq, Repr

/-- Environment of one `check_and_manage_close_orders` tick: the values its
venue queries return, in source order — `standx.get_position()` and
`lighter.get_position()` at entry (lines 264-265, with 0 when Lighter is
disabled), `get_ticker()` in the tracked-order branch (line 326), the
(order id, cl_ord_id) pairs of `standx.active_orders` after
`sync_open_orders()` (line 333), `standx.get_position()` re-read at line 354,
`lighter.get_position()` re-read at line 312 after a close attempt, and the
environment of any nested `place_close_order` call. -/
structure ManageEnv where
  standxPos : ℚ
  lighterPos : ℚ
  markPrice : ℚ
  activeOrders : List (String × Option String)
  standxPosAfter : ℚ
  lighterPosAfterClose : ℚ
  closeEnv : PlaceCloseEnv
deriving DecidableEq, Repr

/-- The `for order_id, order_info in self.standx.active_orders.items()` scan
that finds the tracked close order by cl_ord_id (main.py lines 336-347). -/
def findByClOrdId : List (String × Option String) → String → Option String
  | [], _ => none
  | (oid, c) :: rest, clOrdId =>
    if c = some clOrdId then some oid else findByClOrdId rest clOrdId

/-- The `needs_adjustment` computation (main.py lines 379-393): adjust a sell
close order only when the mark rose above the tracked price by more than the
threshold fraction, a buy close order only when it fell below by more than the
threshold. -/
def needsAdjustment (side : String) (closeOrderPrice markPrice threshold : ℚ) : Bool :=
  if side = "sell" ∧ 0 < markPrice - closeOrderPrice then
    decide (threshold < |markPrice - closeOrderPrice| / markPrice)
  else if side = "buy" ∧ markPrice - closeOrderPrice < 0 then
    decide (threshold < |markPrice - closeOrderPrice| / markPrice)
  else false

/-- The branch of `check_and_manage_close_orders` for positions with no close
order tracked (main.py lines 277-321): re-place a close order from the StandX
position, or — when only Lighter holds a residual — run the loop-protected
Lighter close: skip blocked sizes, block a size whose attempt counter has
reached `max_close_attempts`, otherwise bump the counter, attempt the close,
and clear counter and block on a verified success. -/
def manage_residual (cfg : BotConfig) (st : MainState) (env : ManageEnv) :
    MainState × List MAction :=
  if 0 < env.standxPos then
    ({ st with tracking := (place_close_order cfg st.tracking env.closeEnv "sell" |env.standxPos|).1 },
     (place_close_order cfg st.tracking env.closeEnv "sell" |env.standxPos|).2)
  else if env.standxPos < 0 then
    ({ st with tracking := (place_close_order cfg st.tracking env.closeEnv "buy" |env.standxPos|).1 },
     (place_close_order cfg st.tracking env.closeEnv "buy" |env.standxPos|).2)
  else if env.standxPos = 0 ∧ env.lighterPos ≠ 0 then
    let key := posKey env.lighterPos
    if key ∈ st.blocked then (st, [])
    else
      let attempts := lookupAttempts st.closeAttempts key
      if max_close_attempts ≤ attempts then
        ({ st with blocked := key :: st.blocked }, [])
      else
        let bumped := setAttempts st.closeAttempts key (attempts + 1)
        if env.lighterPosAfterClose = 0 then
          ({ st with closeAttempts := removeAttempts bumped key,
                     blocked := removeBlocked st.blocked key },
           [MAction.closeLighterHedge env.lighterPos])
        else
          ({ st with closeAttempts := bumped },
           [MAction.closeLighterHedge env.lighterPos])
  else (st, [])

/-- The branch for a tracked close order still present after the sync (main.py
lines 338-405): record the venue order id on first sight (marking it as a
close order), then cancel-and-replace only when `needs_adjustment` fires. -/
def manage_found (cfg : BotConfig) (st : MainState) (env : ManageEnv)
    (closeOrderPrice : ℚ) (closeOrderSide : String) (realId : String) :
    MainState × List MAction :=
  let st1 : MainState :=
    if st.tracking.closeOrderId = none then
      { st with tracking := { st.tracking with closeOrderId := some realId } }
    else st
  let acts1 : List MAction :=
    if st.tracking.closeOrderId = none then [MAction.markCloseOrder realId] else []
  if needsAdjustment closeOrderSide closeOrderPrice env.markPrice cfg.closeUpdateThreshold then
    let cancelActs : List MAction :=
      match st1.tracking.closeOrderId with
      | some oid => [MAction.cancelOrder oid]
      | none => []
    if 0 < env.standxPos then
      ({ st1 with tracking := (place_close_order cfg st1.tracking env.closeEnv "sell" |env.standxPos|).1 },
       acts1 ++ cancelActs ++ (place_close_order cfg st1.tracking env.closeEnv "sell" |env.standxPos|).2)
    else if env.standxPos < 0 then
      ({ st1 with tracking := (place_close_order cfg st1.tracking env.closeEnv "buy" |env.standxPos|).1 },
       acts1 ++ cancelActs ++ (place_close_order cfg st1.tracking env.closeEnv "buy" |env.standxPos|).2)
    else (st1, acts1 ++ cancelActs)
  else (st1, acts1)

/-- The branch for a tracked close order that is no longer active (main.py
lines 349-374): if the StandX position is now flat, close the Lighter hedge
and clear the tracking; otherwise re-place a close order from the fresh
position. -/
def manage_gone (cfg : BotConfig) (st : MainState) (env : ManageEnv) :
    MainState × List MAction :=
  if env.standxPosAfter = 0 then
    ({ st with tracking := CloseTracking.cleared },
     [MAction.closeLighterHedge env.lighterPos])
  else if 0 < env.standxPosAfter then
    ({ st with tracking := (place_close_order cfg st.tracking env.closeEnv "sell" |env.standxPosAfter|).1 },
     (place_close_order cfg st.tracking env.closeEnv "sell" |env.standxPosAfter|).2)
  else
    ({ st with tracking := (place_close_order cfg st.tracking env.closeEnv "buy" |env.standxPosAfter|).1 },
     (place_close_order cfg st.tracking env.closeEnv "buy" |env.standxPosAfter|).2)

/-- `StandXMakerHedger.check_and_manage_close_orders` (main.py lines 257-408):
clear tracking when both venues are flat; with positions but no tracked close
order run the recovery branch; with a tracked close order (all three tracking
fields truthy, Python semantics: non-empty / non-zero) and a positive mark
price, dispatch on whether the order survived the sync. -/
def check_and_manage_close_orders (cfg : BotConfig) (st : MainState) (env : ManageEnv) :
    MainState × List MAction :=
  if env.standxPos = 0 ∧ env.lighterPos = 0 then
    (if optStrTruthy st.tracking.closeOrderClOrdId then
       { st with tracking := CloseTracking.cleared }
     else st, [])
  else if ¬ optStrTruthy st.tracking.closeOrderClOrdId then
    manage_residual cfg st env
  else
    match st.tracking.closeOrderClOrdId, st.tracking.closeOrderPrice, st.tracking.closeOrderSide with
    | some clOrdId, some closeOrderPrice, some closeOrderSide =>
      if closeOrderPrice = 0 ∨ closeOrderSide = "" then (st, [])
      else if env.markPrice ≤ 0 then (st, [])
      else
        (match findByClOrdId env.activeOrders clOrdId with
         | some realId => manage_found cfg st env closeOrderPrice closeOrderSide realId
         | none => manage_gone cfg st env)
    | _, _, _ => (st, [])

/- ---------------------------------------------------------------------
   lighter_client.py: LighterHedger.place_hedge_order — step structure
   --------------------------------------------------------------------- -/

/-- The abstract steps a hedge placement can perform.  `lockAcquire` and
`lockRelease` are the mutual-exclusion operations the specification and
test_concurrent_hedge.py describe; the embedded body of `place_hedge_order`
shows whether they occur. -/
inductive HStep where
  | enabledCheck
  | prepareOrder
  | fetchPrice
  | buildParams
  | submitOrder
  | recordPosition
  | lockAcquire
  | lockRelease
deriving DecidableEq, Repr

/-- The body of `LighterHedger.place_hedge_order` (lighter_client.py lines
179-242) as its ordered step sequence for a call with `price=None`: the
`enabled` guard, side/client-index preparation, `await fetch_bbo_prices()`,
building `order_params`, `await create_order(...)`, and the
`current_position` update.  The function contains no lock operation. -/
def place_hedge_order_steps : List HStep :=
  [HStep.enabledCheck, HStep.prepareOrder, HStep.fetchPrice,
   HStep.buildParams, HStep.submitOrder, HStep.recordPosition]

/-- The decision steps of a hedge placement: read the market price, compute
the order, submit it. -/
def HStep.isDecision : HStep → Bool
  | .fetchPrice | .buildParams | .submitOrder => true
  | _ => false

/-- Steps after which the asyncio scheduler may run another task: the two
`await` points, and the final step (the coroutine returns). -/
def HStep.yieldsAfter : HStep → Bool
  | .fetchPrice | .submitOrder | .recordPosition => true
  | _ => false

/-- Project a two-task schedule onto one task's step sequence. -/
def projSteps (t : Bool) (s : List (Bool × HStep)) : List HStep :=
  (s.filter (fun p => p.1 == t)).map (fun p => p.2)

/-- A schedule is an interleaving of two `place_hedge_order` calls. -/
def isInterleaving (s : List (Bool × HStep)) : Prop :=
  projSteps false s = place_hedge_order_steps ∧ projSteps true s = place_hedge_order_steps

/-- Cooperative validity: consecutive steps of different tasks are separated
only at a yield point of the task that ran first. -/
def cooperativeOk : List (Bool × HStep) → Bool
  | [] => true
  | [_] => true
  | (t1, a) :: (t2, b) :: rest =>
    ((t1 == t2) || a.yieldsAfter) && cooperativeOk ((t2, b) :: rest)

/-- A decision step of the second call runs strictly between two decision
steps of the first call. -/
def decisionOverlap (s : List (Bool × HStep)) : Prop :=
  ∃ i j k : Fin s.length, i.val < j.val ∧ j.val < k.val ∧
    (s.get i).1 = false ∧ (s.get i).2.isDecision = true ∧
    (s.get j).1 = true ∧ (s.get j).2.isDecision = true ∧
    (s.get k).1 = false ∧ (s.get k).2.isDecision = true

/-- The interleaving realised when a second hedge request arrives while the
first awaits its price query (the scenario of test_concurrent_hedge.py: task
`false` hedges buy 0.001, task `true` hedges buy 0.002). -/
def schedTwoHedges : List (Bool × HStep) :=
  [(false, HStep.enabledCheck), (false, HStep.prepareOrder), (false, HStep.fetchPrice),
   (true, HStep.enabledCheck), (true, HStep.prepareOrder), (true, HStep.fetchPrice),
   (false, HStep.buildParams), (false, HStep.submitOrder),
   (true, HStep.buildParams), (true, HStep.submitOrder),
   (false, HStep.recordPosition), (true, HStep.recordPosition)]

/- ---------------------------------------------------------------------
   Concrete states and events used by witnesses and counterexamples
   --------------------------------------------------------------------- -/

/-- 0.001, the fill quantity of the repository's own test scenarios. -/
def q001 : ℚ := mkRat 1 1000

/-- A tracked maker order: buy 0.001 BTC at 90416. -/
def infoW : OrderInfo := ⟨"7", "buy", 90416, q001, "open", none⟩

/-- Callback state with order "7" tracked, nothing processed, handler set. -/
def sxW : SXState := ⟨[("7", infoW)], [], [], true⟩

/-- A fill notification for order "7": filled 0.001 at 90416. -/
def evFillW : WsEvent := ⟨some "7", "filled", "buy", 90416, q001, q001⟩

/-- A redelivered notification for order "7" whose status says cancelled but
which still carries the positive filled quantity. -/
def evFillCancelledW : WsEvent := ⟨some "7", "cancelled", "buy", 90416, q001, q001⟩

/-- A pure cancel notification for order "7" (zero filled quantity). -/
def evCancelW : WsEvent := ⟨some "7", "cancelled", "buy", 90416, q001, 0⟩

/-- Callback state in which order "7" is additionally marked as a close
order. -/
def sxCloseW : SXState := ⟨[("7", infoW)], [], ["7"], true⟩

/-- Strategy config with defaults: hedge immediately, close spread 0.01% and
close-order update threshold 0.05%. -/
def cfgW : BotConfig := ⟨true, mkRat 1 10000, mkRat 1 2000⟩

/-- A healthy risk state: 1 BTC max position, no losses, no stop. -/
def riskW : RiskState := ⟨1, 100, 1000, 0, 0, 0, false⟩

/-- Close tracking with a close order already tracked (cl_ord_id
"sell_1700", sell at 99000, venue id "55"). -/
def trTrackedW : CloseTracking := ⟨some "55", some "sell_1700", some 99000, some "sell"⟩

/-- A buy fill of 0.001 at 90416. -/
def fillW : FillData := ⟨"7", "buy", q001, 90416⟩

/-- Fill environment: hedge succeeds, mark price 100000, close placement
succeeds with venue id "999". -/
def fillEnvW : FillEnv := ⟨true, ⟨100000, some ⟨"999", "sell_1701"⟩⟩⟩

/-- Fill environment in which the hedge placement fails. -/
def fillEnvFailW : FillEnv := ⟨false, ⟨100000, none⟩⟩

/-- -0.001. -/
def negq001 : ℚ := mkRat (-1) 1000

/-- Controller state whose residual Lighter size 0.001 is already blocked
while a stale close order is still tracked. -/
def stBlockedTrackedW : MainState := ⟨trTrackedW, [], [posKey q001]⟩

/-- Tick environment: StandX flat, Lighter residual 0.001, mark 100000, the
tracked close order absent from the sync, StandX still flat on re-read. -/
def envGoneW : ManageEnv := ⟨0, q001, 100000, [], 0, q001, ⟨100000, none⟩⟩

/-- Controller state with no close order tracked and size 0.001 blocked. -/
def stBlockedW : MainState := ⟨CloseTracking.cleared, [], [posKey q001]⟩

/-- Controller state with no close order tracked and ten recorded close
attempts for size 0.001. -/
def stExhaustedW : MainState := ⟨CloseTracking.cleared, [(posKey q001, 10)], []⟩

/-- Controller state with a sell close order tracked at 99000 (venue id
"55"). -/
def stTrackedW : MainState := ⟨trTrackedW, [], []⟩

/-- Tick environment: StandX long 0.001, mark risen to 100000, the tracked
close order still present in the sync. -/
def envAdjustW : ManageEnv :=
  ⟨q001, negq001, 100000, [("55", some "sell_1700")], q001, negq001,
   ⟨100000, some ⟨"999", "sell_1702"⟩⟩⟩

/-- Same tick environment with the mark below the tracked close price (an
unfavorable move for a sell close order). -/
def envNoAdjustW : ManageEnv :=
  ⟨q001, negq001, 98000, [("55", some "sell_1700")], q001, negq001,
   ⟨98000, some ⟨"999", "sell_1702"⟩⟩⟩

/- ---------------------------------------------------------------------
   Helper lemmas: association-list and set helpers
   --------------------------------------------------------------------- -/

theorem lookupOrder_removeKey (l : List (String × OrderInfo)) (oid : String) :
    lookupOrder (removeKey l oid) oid = none := by
  induction l with
  | nil => rfl
  | cons p rest ih =>
    by_cases h : p.1 = oid
    · simpa [removeKey, h] using ih
    · simpa [removeKey, lookupOrder, h] using ih

theorem mem_removeAll (l : List String) (oid x : String) :
    x ∈ removeAll l oid ↔ x ∈ l ∧ x ≠ oid := by
  induction l with
  | nil => simp [removeAll]
  | cons y rest ih =>
    simp only [removeAll]
    by_cases h : y = oid
    · rw [if_pos h, ih]
      subst h
      constructor
      · rintro ⟨hx, hne⟩
        exact ⟨List.mem_cons_of_mem _ hx, hne⟩
      · rintro ⟨hx, hne⟩
        rcases List.mem_cons.mp hx with rfl | hx2
        · exact absurd rfl hne
        · exact ⟨hx2, hne⟩
    · rw [if_neg h]
      constructor
      · intro hx
        rcases List.mem_cons.mp hx with rfl | hx2
        · exact ⟨List.mem_cons_self _ _, h⟩
        · obtain ⟨hr, hne⟩ := ih.mp hx2
          exact ⟨List.mem_cons_of_mem _ hr, hne⟩
      · rintro ⟨hx, hne⟩
        rcases List.mem_cons.mp hx with rfl | hx2
        · exact List.mem_cons_self _ _
        · exact List.mem_cons_of_mem _ (ih.mpr ⟨hx2, hne⟩)

theorem not_mem_removeAll_self (l : List String) (oid : String) :
    oid ∉ removeAll l oid := by
  intro h
  exact ((mem_removeAll l oid oid).1 h).2 rfl

/- ---------------------------------------------------------------------
   Helper lemmas: one callback step
   --------------------------------------------------------------------- -/

/-- `processed_fills` never shrinks inside the order-update callback. -/
theorem mem_processedFills_step (st : SXState) (e : WsEvent) (x : String)
    (hx : x ∈ st.processedFills) :
    x ∈ (on_ws_order_update st e).1.processedFills := by
  unfold on_ws_order_update
  split
  · exact hx
  · split
    · exact hx
    · split
      · split
        · exact hx
        · split
          · exact List.mem_cons_of_mem _ hx
          · exact List.mem_cons_of_mem _ hx
      · split
        · exact hx
        · exact hx

/-- A callback step either schedules no hedge invocation, or exactly one for
the event's order id, which was not yet processed and is processed
afterwards. -/
theorem calls_characterize (st : SXState) (e : WsEvent) :
    (on_ws_order_update st e).2 = [] ∨
    ∃ oid, e.orderId = some oid ∧ oid ∉ st.processedFills ∧
      (on_ws_order_update st e).2 = [mkHedgeCall oid e] ∧
      (on_ws_order_update st e).1.processedFills = oid :: st.processedFills := by
  unfold on_ws_order_update
  split
  · exact Or.inl rfl
  · rename_i oid heq
    split
    · exact Or.inl rfl
    · split
      · split
        · exact Or.inl rfl
        · rename_i hproc
          split
          · exact Or.inl rfl
          · by_cases hh : st.handlerRegistered = true
            · refine Or.inr ⟨oid, heq, hproc, ?_, rfl⟩
              simp [hh]
            · exact Or.inl (by simp [hh])
      · split
        · exact Or.inl rfl
        · exact Or.inl rfl

/-- Once an id is in `processed_fills`, no event carrying that id schedules a
hedge invocation. -/
theorem calls_empty_of_processed (st : SXState) (e : WsEvent) (oid : String)
    (hid : e.orderId = some oid) (hmem : oid ∈ st.processedFills) :
    (on_ws_order_update st e).2 = [] := by
  rcases calls_characterize st e with h | ⟨oid2, hid2, hnot, _, _⟩
  · exact h
  · rw [hid] at hid2
    cases hid2
    exact absurd hmem hnot

/-- An id in `close_order_ids` never schedules a hedge invocation. -/
theorem calls_empty_of_close (st : SXState) (e : WsEvent) (oid : String)
    (hid : e.orderId = some oid) (hmem : oid ∈ st.closeOrderIds) :
    (on_ws_order_update st e).2 = [] := by
  obtain ⟨eid, estat, eside, epr, eqty, efq⟩ := e
  obtain rfl : eid = some oid := hid
  simp only [on_ws_order_update]
  generalize lookupOrder st.activeOrders oid = L
  cases L with
  | none => rfl
  | some info =>
    by_cases h3 : (0 : ℚ) < efq
    · by_cases h4 : oid ∈ st.processedFills
      · simp [h3, h4]
      · simp [h3, h4, hmem]
    · by_cases h6 : estat = "cancelled" ∨ estat = "canceled" ∨ estat = "rejected"
      · simp [h3, h6]
      · simp [h3, h6]

/-- Explicit result of the callback on a fresh positive fill of a tracked,
non-close order with a registered handler. -/
theorem step_fill_fresh (st : SXState) (e : WsEvent) (oid : String) (info : OrderInfo)
    (hid : e.orderId = some oid) (htr : lookupOrder st.activeOrders oid = some info)
    (hqty : 0 < e.filledQty) (hproc : oid ∉ st.processedFills)
    (hclose : oid ∉ st.closeOrderIds) (hhand : st.handlerRegistered = true) :
    on_ws_order_update st e =
      ({ st with activeOrders := removeKey (setStatus st.activeOrders oid e.status) oid,
                 processedFills := oid :: st.processedFills }, [mkHedgeCall oid e]) := by
  obtain ⟨eid, estat, eside, epr, eqty, efq⟩ := e
  obtain rfl : eid = some oid := hid
  simp only [on_ws_order_update]
  rw [htr]
  simp only [mkHedgeCall] at *
  simp [hqty, hproc, hclose, hhand]

/-- Explicit result of the callback on a zero-fill cancel/reject notification
for a tracked order: the order is removed as cancelled and nothing is
scheduled. -/
theorem step_cancel_zero (st : SXState) (e : WsEvent) (oid : String) (info : OrderInfo)
    (hid : e.orderId = some oid) (htr : lookupOrder st.activeOrders oid = some info)
    (hq : e.filledQty ≤ 0)
    (hstat : e.status = "cancelled" ∨ e.status = "canceled" ∨ e.status = "rejected") :
    on_ws_order_update st e =
      ({ st with activeOrders := removeKey (setStatus st.activeOrders oid e.status) oid,
                 closeOrderIds := removeAll st.closeOrderIds oid }, []) := by
  obtain ⟨eid, estat, eside, epr, eqty, efq⟩ := e
  obtain rfl : eid = some oid := hid
  simp only [on_ws_order_update]
  rw [htr]
  have hnq : ¬ (0 : ℚ) < efq := not_lt.mpr hq
  simp only [] at hstat
  simp [hnq, hstat]

/-- Explicit result of the callback on a fresh positive fill of a tracked
order that is marked as a close order: no hedge is scheduled, the id leaves
both `close_order_ids` and `active_orders`. -/
theorem step_fill_close (st : SXState) (e : WsEvent) (oid : String) (info : OrderInfo)
    (hid : e.orderId = some oid) (htr : lookupOrder st.activeOrders oid = some info)
    (hq : 0 < e.filledQty) (hproc : oid ∉ st.processedFills)
    (hclose : oid ∈ st.closeOrderIds) :
    on_ws_order_update st e =
      ({ st with activeOrders := removeKey (setStatus st.activeOrders oid e.status) oid,
                 processedFills := oid :: st.processedFills,
                 closeOrderIds := removeAll st.closeOrderIds oid }, []) := by
  obtain ⟨eid, estat, eside, epr, eqty, efq⟩ := e
  obtain rfl : eid = some oid := hid
  simp only [on_ws_order_update]
  rw [htr]
  simp [hq, hproc, hclose]

/-- A positive fill of a tracked order always lands the id in
`processed_fills` (the order is resolved by fill, not discarded). -/
theorem fill_marks_processed (st : SXState) (e : WsEvent) (oid : String) (info : OrderInfo)
    (hid : e.orderId = some oid) (htr : lookupOrder st.activeOrders oid = some info)
    (hq : 0 < e.filledQty) :
    oid ∈ (on_ws_order_update st e).1.processedFills := by
  obtain ⟨eid, estat, eside, epr, eqty, efq⟩ := e
  obtain rfl : eid = some oid := hid
  simp only [on_ws_order_update]
  rw [htr]
  by_cases h4 : oid ∈ st.processedFills
  · simp [hq, h4]
  · by_cases h5 : oid ∈ st.closeOrderIds
    · simp [hq, h4, h5]
    · by_cases hh : st.handlerRegistered = true <;> simp [hq, h4, h5, hh]

/-- A positive fill of a tracked order removes it from `active_orders` on
every path of the fill branch. -/
theorem fill_removes_active (st : SXState) (e : WsEvent) (oid : String) (info : OrderInfo)
    (hid : e.orderId = some oid) (htr : lookupOrder st.activeOrders oid = some info)
    (hq : 0 < e.filledQty) :
    lookupOrder (on_ws_order_update st e).1.activeOrders oid = none := by
  obtain ⟨eid, estat, eside, epr, eqty, efq⟩ := e
  obtain rfl : eid = some oid := hid
  simp only [on_ws_order_update]
  rw [htr]
  by_cases h4 : oid ∈ st.processedFills
  · simp [hq, h4, lookupOrder_removeKey]
  · by_cases h5 : oid ∈ st.closeOrderIds
    · simp [hq, h4, h5, lookupOrder_removeKey]
    · by_cases hh : st.handlerRegistered = true <;>
        simp [hq, h4, h5, hh, lookupOrder_removeKey]

/- ---------------------------------------------------------------------
   Helper lemmas: event sequences
   --------------------------------------------------------------------- -/

theorem mem_processedFills_seq (es : List WsEvent) (x : String) :
    ∀ st : SXState, x ∈ st.processedFills → x ∈ (processEvents st es).1.processedFills := by
  induction es with
  | nil => intro st hx; exact hx
  | cons e rest ih => intro st hx; exact ih _ (mem_processedFills_step st e x hx)

theorem countCallsFor_append (oid : String) (a b : List HedgeCall) :
    countCallsFor oid (a ++ b) = countCallsFor oid a + countCallsFor oid b := by
  simp [countCallsFor, List.countP_append]

theorem countCallsFor_single (oid oid2 : String) (e : WsEvent) :
    countCallsFor oid [mkHedgeCall oid2 e] = if oid2 = oid then 1 else 0 := by
  by_cases h : oid2 = oid <;> simp [countCallsFor, mkHedgeCall, List.countP_cons, h]

/-- Once an id is processed, no later event in the stream produces a
hedge-handler invocation for it. -/
theorem seq_count_zero_of_processed (oid : String) (es : List WsEvent) :
    ∀ st : SXState, oid ∈ st.processedFills →
      countCallsFor oid (processEvents st es).2 = 0 := by
  induction es with
  | nil => intro st _; rfl
  | cons e rest ih =>
    intro st h
    have h2 := mem_processedFills_step st e oid h
    have hstep : countCallsFor oid (on_ws_order_update st e).2 = 0 := by
      rcases calls_characterize st e with hc | ⟨oid2, _, hnot, hcs, _⟩
      · simp [hc, countCallsFor]
      · have hne : oid2 ≠ oid := fun hh => hnot (hh ▸ h)
        simp [hcs, countCallsFor_single, hne]
    show countCallsFor oid
      ((on_ws_order_update st e).2 ++ (processEvents (on_ws_order_update st e).1 rest).2) = 0
    rw [countCallsFor_append, hstep, ih _ h2]

/-- Over any event stream, at most one hedge-handler invocation carries a
given order id. -/
theorem seq_count_le_one (oid : String) (es : List WsEvent) :
    ∀ st : SXState, countCallsFor oid (processEvents st es).2 ≤ 1 := by
  induction es with
  | nil => intro st; simp [countCallsFor, processEvents]
  | cons e rest ih =>
    intro st
    show countCallsFor oid
      ((on_ws_order_update st e).2 ++ (processEvents (on_ws_order_update st e).1 rest).2) ≤ 1
    rw [countCallsFor_append]
    rcases calls_characterize st e with hc | ⟨oid2, _, _, hcs, hpf⟩
    · simpa [hc, countCallsFor] using ih (on_ws_order_update st e).1
    · by_cases h : oid2 = oid
      · subst h
        have hz : countCallsFor oid2 (processEvents (on_ws_order_update st e).1 rest).2 = 0 :=
          seq_count_zero_of_processed oid2 rest _ (by rw [hpf]; exact List.mem_cons_self _ _)
        simp [hcs, countCallsFor_single, hz]
      · simpa [hcs, countCallsFor_single, h] using ih (on_ws_order_update st e).1

/-- Once an id is processed, later events carrying only that id schedule
nothing at all. -/
theorem seq_calls_empty_of_processed (oid : String) (es : List WsEvent) :
    ∀ st : SXState, (∀ e ∈ es, e.orderId = some oid) → oid ∈ st.processedFills →
      (processEvents st es).2 = [] := by
  induction es with
  | nil => intro st _ _; rfl
  | cons e rest ih =>
    intro st hall h
    have h1 : (on_ws_order_update st e).2 = [] :=
      calls_empty_of_processed st e oid (hall e (List.mem_cons_self _ _)) h
    have h2 := mem_processedFills_step st e oid h
    have h3 := ih (on_ws_order_update st e).1
      (fun e2 he2 => hall e2 (List.mem_cons_of_mem _ he2)) h2
    show (on_ws_order_update st e).2 ++ (processEvents (on_ws_order_update st e).1 rest).2 = []
    rw [h1, h3]
    rfl

/- ---------------------------------------------------------------------
   Claim theorems
   --------------------------------------------------------------------- -/

/-- C1: across any sequence of deliveries to the order-update callback, the
hedge handler is invoked at most once per venue order id; moreover, for an
order that is tracked, not yet processed and not a close order, with a handler
registered, a stream of fill notifications sharing that id produces exactly
the one hedge invocation built from the first delivery — every subsequent
delivery triggers nothing. -/
theorem fill_dedup_at_most_one_hedge (st : SXState) (es : List WsEvent) (oid : String) :
    countCallsFor oid (processEvents st es).2 ≤ 1 ∧
    (∀ e rest, es = e :: rest →
      (∀ e2 ∈ es, e2.orderId = some oid ∧ 0 < e2.filledQty) →
      (lookupOrder st.activeOrders oid).isSome = true →
      oid ∉ st.processedFills → oid ∉ st.closeOrderIds → st.handlerRegistered = true →
      (processEvents st es).2 = [mkHedgeCall oid e]) := by
  refine ⟨seq_count_le_one oid es st, ?_⟩
  rintro e rest rfl hall hsome hproc hclose hhand
  obtain ⟨info, hinfo⟩ := Option.isSome_iff_exists.mp hsome
  have hstep := step_fill_fresh st e oid info (hall e (List.mem_cons_self _ _)).1 hinfo
    (hall e (List.mem_cons_self _ _)).2 hproc hclose hhand
  show (on_ws_order_update st e).2 ++ (processEvents (on_ws_order_update st e).1 rest).2
      = [mkHedgeCall oid e]
  rw [hstep]
  have hrest := seq_calls_empty_of_processed oid rest
    { st with activeOrders := removeKey (setStatus st.activeOrders oid e.status) oid,
              processedFills := oid :: st.processedFills }
    (fun e2 he2 => (hall e2 (List.mem_cons_of_mem _ he2)).1)
    (List.mem_cons_self _ _)
  rw [hrest]
  rfl

/-- C1 witness: three redeliveries of the same fill trigger exactly one hedge
invocation. -/
theorem fill_dedup_at_most_one_hedge_witness :
    (lookupOrder sxW.activeOrders "7").isSome = true ∧
    "7" ∉ sxW.processedFills ∧ "7" ∉ sxW.closeOrderIds ∧ sxW.handlerRegistered = true ∧
    (processEvents sxW [evFillW, evFillW, evFillW]).2 = [mkHedgeCall "7" evFillW] ∧
    countCallsFor "7" (processEvents sxW [evFillW, evFillW, evFillW]).2 ≤ 1 :=
  ⟨by decide, by decide, by decide, by decide,
   (fill_dedup_at_most_one_hedge sxW [evFillW, evFillW, evFillW] "7").2 evFillW
     [evFillW, evFillW] rfl (by decide) (by decide) (by decide) (by decide) (by decide),
   (fill_dedup_at_most_one_hedge sxW [evFillW, evFillW, evFillW] "7").1⟩

/-- C3: a cancel notification removes a tracked order only when its filled
quantity was zero; a notification carrying a positive filled quantity — even
one whose status says cancelled — takes the fill path: the id is recorded as
resolved-by-fill, and for a fresh non-close order the hedge handler is
triggered rather than the order being discarded as cancelled. -/
theorem cancel_only_removes_unfilled (st : SXState) (e : WsEvent) (oid : String)
    (info : OrderInfo) (hid : e.orderId = some oid)
    (htr : lookupOrder st.activeOrders oid = some info) :
    (e.filledQty ≤ 0 →
       (e.status = "cancelled" ∨ e.status = "canceled" ∨ e.status = "rejected") →
       lookupOrder (on_ws_order_update st e).1.activeOrders oid = none ∧
       (on_ws_order_update st e).2 = []) ∧
    (0 < e.filledQty → oid ∈ (on_ws_order_update st e).1.processedFills) ∧
    (0 < e.filledQty → oid ∉ st.processedFills → oid ∉ st.closeOrderIds →
       st.handlerRegistered = true →
       (on_ws_order_update st e).2 = [mkHedgeCall oid e]) := by
  refine ⟨?_, ?_, ?_⟩
  · intro hq hstat
    rw [step_cancel_zero st e oid info hid htr hq hstat]
    exact ⟨lookupOrder_removeKey _ _, rfl⟩
  · intro hq
    exact fill_marks_processed st e oid info hid htr hq
  · intro hq hproc hclose hhand
    rw [step_fill_fresh st e oid info hid htr hq hproc hclose hhand]

/-- C3 witness: a zero-fill cancel removes order "7" silently; a cancel
notification still carrying the filled quantity 0.001 triggers the hedge. -/
theorem cancel_only_removes_unfilled_witness :
    (lookupOrder (on_ws_order_update sxW evCancelW).1.activeOrders "7" = none ∧
     (on_ws_order_update sxW evCancelW).2 = []) ∧
    (on_ws_order_update sxW evFillCancelledW).2 = [mkHedgeCall "7" evFillCancelledW] :=
  ⟨(cancel_only_removes_unfilled sxW evCancelW "7" infoW (by decide) (by decide)).1
     (by decide) (by decide),
   (cancel_only_removes_unfilled sxW evFillCancelledW "7" infoW (by decide)
     (by decide)).2.2 (by decide) (by decide) (by decide) (by decide)⟩

/-- C10: an id marked as a close order never triggers the hedge handler, and
a fresh fill of a tracked close order removes the id from both the close-order
set and the active-order map. -/
theorem close_order_fill_never_triggers_hedge (st : SXState) (e : WsEvent) (oid : String)
    (hid : e.orderId = some oid) (hmem : oid ∈ st.closeOrderIds) :
    (on_ws_order_update st e).2 = [] ∧
    (∀ s x, x ∈ (mark_as_close_order s x).closeOrderIds) ∧
    ((lookupOrder st.activeOrders oid).isSome = true → 0 < e.filledQty →
      oid ∉ st.processedFills →
      oid ∉ (on_ws_order_update st e).1.closeOrderIds ∧
      lookupOrder (on_ws_order_update st e).1.activeOrders oid = none) := by
  refine ⟨calls_empty_of_close st e oid hid hmem, ?_, ?_⟩
  · intro s x
    exact List.mem_cons_self _ _
  · intro hsome hq hproc
    obtain ⟨info, hinfo⟩ := Option.isSome_iff_exists.mp hsome
    rw [step_fill_close st e oid info hid hinfo hq hproc hmem]
    exact ⟨not_mem_removeAll_self _ _, lookupOrder_removeKey _ _⟩

/-- C10 witness: the fill of marked close order "7" triggers nothing and
clears both trackers. -/
theorem close_order_fill_never_triggers_hedge_witness :
    (on_ws_order_update sxCloseW evFillW).2 = [] ∧
    "7" ∉ (on_ws_order_update sxCloseW evFillW).1.closeOrderIds ∧
    lookupOrder (on_ws_order_update sxCloseW evFillW).1.activeOrders "7" = none :=
  ⟨(close_order_fill_never_triggers_hedge sxCloseW evFillW "7" (by decide) (by decide)).1,
   ((close_order_fill_never_triggers_hedge sxCloseW evFillW "7" (by decide) (by decide)).2.2
     (by decide) (by decide) (by decide)).1,
   ((close_order_fill_never_triggers_hedge sxCloseW evFillW "7" (by decide) (by decide)).2.2
     (by decide) (by decide) (by decide)).2⟩

/-- C2: `place_hedge_order` contains no lock operation, and consequently two
concurrent hedge placements admit a valid cooperative schedule — the one
realised when the second request arrives while the first awaits its price
query, as in test_concurrent_hedge.py — in which the second call's decision
steps run strictly between the first call's decision steps.  This contradicts
the mutual exclusion the specification (and the repository's own concurrency
test) requires. -/
theorem place_hedge_order_has_no_lock :
    HStep.lockAcquire ∉ place_hedge_order_steps ∧
    HStep.lockRelease ∉ place_hedge_order_steps ∧
    isInterleaving schedTwoHedges ∧
    cooperativeOk schedTwoHedges = true ∧
    decisionOverlap schedTwoHedges := by
  refine ⟨by decide, by decide, by unfold isInterleaving; decide, by decide,
          by unfold decisionOverlap; decide⟩

/-- C7: the `processed_fills` eviction step is size-bounded but not
recency-ordered: on a 1001-identifier history inserted in the order
0, 1, ..., 1000, the set may be enumerated in reverse of insertion order (a
permutation — Python set iteration order is arbitrary), and the code then
keeps the 500 *oldest* identifiers: identifier 0 (the oldest) is retained and
identifier 1000 (the newest) is evicted — the opposite of the oldest-first
eviction the specification (and the code's own comment "keep only recent
entries") describes, under which 1000 is retained and 0 evicted. -/
theorem processed_fills_eviction_ignores_recency :
    ((List.range 1001).reverse).Perm (List.range 1001) ∧
    (cleanup_processed_fills ((List.range 1001).reverse)).length = 500 ∧
    0 ∈ cleanup_processed_fills ((List.range 1001).reverse) ∧
    1000 ∉ cleanup_processed_fills ((List.range 1001).reverse) ∧
    0 ∉ mostRecentHalf (List.range 1001) ∧
    1000 ∈ mostRecentHalf (List.range 1001) := by
  refine ⟨(List.range 1001).reverse_perm, by decide, by decide, by decide, by decide, by decide⟩

/-- `place_close_order` never emits a hedge action. -/
theorem no_hedge_in_place_close (cfg : BotConfig) (tr : CloseTracking)
    (env : PlaceCloseEnv) (s : String) (q : ℚ) :
    (place_close_order cfg tr env s q).2.countP MAction.isHedge = 0 := by
  unfold place_close_order
  by_cases h : env.markPrice ≤ 0
  · simp [h]
  · cases hp : env.placeResult <;>
      simp [h, hp, List.countP_cons, MAction.isHedge]

/-- C8: if the risk check rejects a fill, the handler sets the emergency-stop
flag and emits nothing — no hedge, no close order; if the (single) hedge
attempt fails, the handler sets the emergency-stop flag and emits only that
one hedge attempt, placing no close order; the handler never makes more than
one hedge attempt per fill; and a set emergency-stop flag makes every later
risk check fail, so no further automatic hedge attempt can pass it. -/
theorem unhedgeable_fill_escalates_to_stop (cfg : BotConfig) (risk : RiskState)
    (tr : CloseTracking) (d : FillData) (env : FillEnv) :
    (can_open_position risk d.qty = false →
       (handle_standx_order_fill cfg risk tr d env).1.emergencyStop = true ∧
       (handle_standx_order_fill cfg risk tr d env).2.2 = []) ∧
    (can_open_position risk d.qty = true → cfg.hedgeImmediately = true →
       env.hedgeSuccess = false →
       (handle_standx_order_fill cfg risk tr d env).1.emergencyStop = true ∧
       (handle_standx_order_fill cfg risk tr d env).2.2
         = [MAction.hedge (if d.side = "buy" then "sell" else "buy") d.qty]) ∧
    ((handle_standx_order_fill cfg risk tr d env).2.2.countP MAction.isHedge ≤ 1) ∧
    (∀ r : RiskState, ∀ q : ℚ, r.emergencyStop = true → can_open_position r q = false) := by
  refine ⟨?_, ?_, ?_, ?_⟩
  · intro h
    simp [handle_standx_order_fill, h, force_stop]
  · intro h1 h2 h3
    simp [handle_standx_order_fill, h1, h2, h3, force_stop]
  · unfold handle_standx_order_fill
    by_cases h1 : can_open_position risk d.qty = true
    · by_cases h2 : cfg.hedgeImmediately = true
      · by_cases h3 : env.hedgeSuccess = true
        · simp [h1, h2, h3, List.countP_cons, MAction.isHedge, no_hedge_in_place_close]
        · simp [h1, h2, h3, List.countP_cons, MAction.isHedge]
      · simp [h1, h2]
    · simp [h1]
  · intro r q h
    simp [can_open_position, h]

/-- C8 witness: a failing hedge attempt for the 0.001 fill sets the
emergency stop and results in exactly one hedge attempt and no close order. -/
theorem unhedgeable_fill_escalates_to_stop_witness :
    can_open_position riskW fillW.qty = true ∧
    (handle_standx_order_fill cfgW riskW CloseTracking.cleared fillW fillEnvFailW).1.emergencyStop
      = true ∧
    (handle_standx_order_fill cfgW riskW CloseTracking.cleared fillW fillEnvFailW).2.2
      = [MAction.hedge (if fillW.side = "buy" then "sell" else "buy") fillW.qty] :=
  ⟨by decide,
   ((unhedgeable_fill_escalates_to_stop cfgW riskW CloseTracking.cleared fillW
       fillEnvFailW).2.1 (by decide) rfl rfl).1,
   ((unhedgeable_fill_escalates_to_stop cfgW riskW CloseTracking.cleared fillW
       fillEnvFailW).2.1 (by decide) rfl rfl).2⟩

/-- `place_close_order` never emits a cancel action. -/
theorem no_cancel_in_place_close (cfg : BotConfig) (tr : CloseTracking)
    (env : PlaceCloseEnv) (s : String) (q : ℚ) (oid : String) :
    MAction.cancelOrder oid ∉ (place_close_order cfg tr env s q).2 := by
  unfold place_close_order
  by_cases h : env.markPrice ≤ 0
  · simp [h]
  · cases hp : env.placeResult <;> simp [h, hp]

/-- The residual-position branch never emits a cancel action. -/
theorem no_cancel_in_residual (cfg : BotConfig) (st : MainState) (env : ManageEnv)
    (oid : String) :
    MAction.cancelOrder oid ∉ (manage_residual cfg st env).2 := by
  unfold manage_residual
  by_cases h1 : 0 < env.standxPos
  · simp only [if_pos h1]
    exact no_cancel_in_place_close _ _ _ _ _ _
  · rw [if_neg h1]
    by_cases h2 : env.standxPos < 0
    · simp only [if_pos h2]
      exact no_cancel_in_place_close _ _ _ _ _ _
    · rw [if_neg h2]
      by_cases h3 : env.standxPos = 0 ∧ env.lighterPos ≠ 0
      · rw [if_pos h3]
        by_cases h4 : posKey env.lighterPos ∈ st.blocked
        · simp [h4]
        · rw [if_neg h4]
          by_cases h5 : max_close_attempts ≤ lookupAttempts st.closeAttempts (posKey env.lighterPos)
          · simp [h5]
          · rw [if_neg h5]
            by_cases h6 : env.lighterPosAfterClose = 0 <;> simp [h6]
      · simp [h3]

/-- The vanished-close-order branch never emits a cancel action. -/
theorem no_cancel_in_gone (cfg : BotConfig) (st : MainState) (env : ManageEnv)
    (oid : String) :
    MAction.cancelOrder oid ∉ (manage_gone cfg st env).2 := by
  unfold manage_gone
  by_cases h1 : env.standxPosAfter = 0
  · simp [h1]
  · rw [if_neg h1]
    by_cases h2 : 0 < env.standxPosAfter
    · simp only [if_pos h2]
      exact no_cancel_in_place_close _ _ _ _ _ _
    · simp only [if_neg h2]
      exact no_cancel_in_place_close _ _ _ _ _ _

/-- A cancel emitted by the still-tracked branch implies the adjustment
condition fired. -/
theorem cancel_in_found_impl (cfg : BotConfig) (st : MainState) (env : ManageEnv)
    (p : ℚ) (s : String) (r : String) (oid : String)
    (h : MAction.cancelOrder oid ∈ (manage_found cfg st env p s r).2) :
    needsAdjustment s p env.markPrice cfg.closeUpdateThreshold = true := by
  by_contra hn
  have hfalse : needsAdjustment s p env.markPrice cfg.closeUpdateThreshold = false :=
    Bool.not_eq_true _ ▸ Bool.eq_false_iff.mpr (fun hx => hn hx)
  unfold manage_found at h
  rw [hfalse] at h
  by_cases h1 : st.tracking.closeOrderId = none <;> simp [h1] at h

/-- Any cancel action emitted by a control-loop tick comes from the
adjustment path: a close order is tracked (all three fields set) and
`needs_adjustment` fired for its side and price. -/
theorem cancel_action_impl (cfg : BotConfig) (st : MainState) (env : ManageEnv)
    (oid : String)
    (h : MAction.cancelOrder oid ∈ (check_and_manage_close_orders cfg st env).2) :
    ∃ c p s, st.tracking.closeOrderClOrdId = some c ∧
      st.tracking.closeOrderPrice = some p ∧ st.tracking.closeOrderSide = some s ∧
      needsAdjustment s p env.markPrice cfg.closeUpdateThreshold = true := by
  obtain ⟨⟨cid, ccl, cp, cs⟩, ca, cb⟩ := st
  unfold check_and_manage_close_orders at h
  by_cases h0 : env.standxPos = 0 ∧ env.lighterPos = 0
  · rw [if_pos h0] at h
    simp at h
  · rw [if_neg h0] at h
    by_cases h1 : optStrTruthy ccl = true
    · rw [if_neg (by simp [h1])] at h
      cases ccl with
      | none => simp [optStrTruthy] at h1
      | some c =>
        cases cp with
        | none => simp at h
        | some p =>
          cases cs with
          | none => simp at h
          | some s =>
            dsimp only at h
            by_cases h2 : p = 0 ∨ s = ""
            · rw [if_pos h2] at h; simp at h
            · rw [if_neg h2] at h
              by_cases h3 : env.markPrice ≤ 0
              · rw [if_pos h3] at h; simp at h
              · rw [if_neg h3] at h
                generalize hf : findByClOrdId env.activeOrders c = F at h
                cases F with
                | none => exact absurd h (no_cancel_in_gone _ _ _ _)
                | some realId =>
                  exact ⟨c, p, s, rfl, rfl, rfl, cancel_in_found_impl _ _ _ _ _ _ _ h⟩
    · rw [if_pos (by simpa using h1)] at h
      exact absurd h (no_cancel_in_residual _ _ _ _)

/-- Unfolding a fired adjustment condition: the move was favorable and beyond
the threshold. -/
theorem needsAdjustment_elim (s : String) (p m th : ℚ)
    (h : needsAdjustment s p m th = true) :
    (s = "sell" ∧ p < m ∧ th < (m - p) / m) ∨
    (s = "buy" ∧ m < p ∧ th < (p - m) / m) := by
  unfold needsAdjustment at h
  by_cases c1 : s = "sell" ∧ 0 < m - p
  · rw [if_pos c1] at h
    refine Or.inl ⟨c1.1, sub_pos.mp c1.2, ?_⟩
    have h2 := of_decide_eq_true h
    rwa [abs_of_pos c1.2] at h2
  · rw [if_neg c1] at h
    by_cases c2 : s = "buy" ∧ m - p < 0
    · rw [if_pos c2] at h
      refine Or.inr ⟨c2.1, sub_neg.mp c2.2, ?_⟩
      have h2 := of_decide_eq_true h
      rwa [abs_of_neg c2.2, neg_sub] at h2
    · rw [if_neg c2] at h
      exact absurd h (by simp)

/-- An unfavorable move for a sell close order never fires the adjustment
condition. -/
theorem needsAdjustment_sell_unfavorable (p m th : ℚ) (h : m ≤ p) :
    needsAdjustment "sell" p m th = false := by
  unfold needsAdjustment
  rw [if_neg (fun hc => absurd hc.2 (not_lt.mpr (sub_nonpos.mpr h))),
      if_neg (fun hc => by simpa using hc.1)]

/-- Replacement price direction, sell side: from an integer tracked price
below the mark, the sell-close price at the fresh mark is no lower. -/
theorem close_price_sell_ge (p m f : ℚ) (hz : ∃ z : ℤ, p = (z : ℚ))
    (hf : 0 ≤ f) (hm : 0 < m) (hpm : p < m) :
    p ≤ close_order_price "sell" m f := by
  obtain ⟨z, rfl⟩ := hz
  unfold close_order_price pyTrunc
  have hmf : 0 ≤ m * f := mul_nonneg hm.le hf
  rw [if_neg (by simp), if_pos (by linarith)]
  have h1 : z ≤ ⌊m + m * f⌋ := Int.le_floor.mpr (by linarith)
  exact_mod_cast h1

/-- Replacement price direction, buy side: from an integer tracked price
above the mark, the buy-close price at the fresh mark is no higher. -/
theorem close_price_buy_le (p m f : ℚ) (hz : ∃ z : ℤ, p = (z : ℚ))
    (hf : 0 ≤ f) (hm : 0 < m) (hmp : m < p) :
    close_order_price "buy" m f ≤ p := by
  obtain ⟨z, rfl⟩ := hz
  unfold close_order_price pyTrunc
  rw [if_pos rfl]
  have hmf : 0 ≤ m * f := mul_nonneg hm.le hf
  by_cases hpos : 0 ≤ m - m * f
  · rw [if_pos hpos]
    have h1 : (⌊m - m * f⌋ : ℚ) ≤ m - m * f := Int.floor_le _
    linarith
  · rw [if_neg hpos]
    push_neg at hpos
    have h1 : (⌈m - m * f⌉ : ℤ) ≤ 0 := Int.ceil_le.mpr (by push_cast; linarith)
    have h2 : ((⌈m - m * f⌉ : ℤ) : ℚ) ≤ 0 := by exact_mod_cast h1
    linarith

/-- C6: close-order price adjustment is monotone in the favorable direction
only.  A cancel-and-replace is emitted by a control-loop tick only when the
mark has moved beyond the configured threshold in the favorable direction of
the tracked side (mark above the tracked price for a sell close, below it for
a buy close) — an unfavorable move never triggers an adjustment; and the
replacement price computed at a mark m with offset f only moves a sell-close
price upward and a buy-close price downward relative to the tracked integer
price. -/
theorem close_adjustment_favorable_only (cfg : BotConfig) (st : MainState)
    (env : ManageEnv) (p : ℚ) (s : String)
    (hp : st.tracking.closeOrderPrice = some p)
    (hs : st.tracking.closeOrderSide = some s) :
    ((∃ oid, MAction.cancelOrder oid ∈ (check_and_manage_close_orders cfg st env).2) →
       (s = "sell" ∧ p < env.markPrice ∧
          cfg.closeUpdateThreshold < (env.markPrice - p) / env.markPrice) ∨
       (s = "buy" ∧ env.markPrice < p ∧
          cfg.closeUpdateThreshold < (p - env.markPrice) / env.markPrice)) ∧
    (∀ m f : ℚ, (∃ z : ℤ, p = (z : ℚ)) → 0 ≤ f → 0 < m →
       (p < m → p ≤ close_order_price "sell" m f) ∧
       (m < p → close_order_price "buy" m f ≤ p)) := by
  constructor
  · rintro ⟨oid, hmem⟩
    obtain ⟨c, p2, s2, _, hp2, hs2, hna⟩ := cancel_action_impl cfg st env oid hmem
    rw [hp] at hp2
    rw [hs] at hs2
    cases hp2
    cases hs2
    exact needsAdjustment_elim s p env.markPrice cfg.closeUpdateThreshold hna
  · intro m f hz hf hm
    exact ⟨fun hpm => close_price_sell_ge p m f hz hf hm hpm,
           fun hmp => close_price_buy_le p m f hz hf hm hmp⟩

/-- C6 witness: for the tracked sell close order at 99000 and mark 100000,
the replacement price is at least the tracked price. -/
theorem close_adjustment_favorable_only_witness :
    stTrackedW.tracking.closeOrderPrice = some 99000 ∧
    stTrackedW.tracking.closeOrderSide = some "sell" ∧
    (99000 : ℚ) < 100000 ∧
    (99000 : ℚ) ≤ close_order_price "sell" 100000 (mkRat 1 10000) :=
  ⟨rfl, rfl, by decide,
   ((close_adjustment_favorable_only cfgW stTrackedW envAdjustW 99000 "sell" rfl rfl).2
      100000 (mkRat 1 10000) ⟨99000, by simp⟩ (by decide) (by decide)).1 (by decide)⟩

/-- The actions of `place_close_order` do not depend on the existing close
tracking. -/
theorem place_close_acts_indep (cfg : BotConfig) (env : PlaceCloseEnv) (s : String)
    (q : ℚ) (tr tr2 : CloseTracking) :
    (place_close_order cfg tr env s q).2 = (place_close_order cfg tr2 env s q).2 := by
  unfold place_close_order
  by_cases h : env.markPrice ≤ 0
  · simp [h]
  · cases hp : env.placeResult <;> simp [h, hp]

/-- C4 counterexample: the post-hedge path places a close order even while a
close order is already tracked (`close_order_cl_ord_id` set), so close-order
creation does not check existing tracking on every path: a second close order
is created and the tracking of the first is overwritten. -/
theorem close_order_created_while_tracked :
    optStrTruthy trTrackedW.closeOrderClOrdId = true ∧
    MAction.placeOrder "sell" (close_order_price "sell" 100000 cfgW.closeSpreadPct) q001
      ∈ (handle_standx_order_fill cfgW riskW trTrackedW fillW fillEnvW).2.2 := by
  refine ⟨by decide, ?_⟩
  have hco : can_open_position riskW q001 = true := by decide
  have hmp : ¬ ((100000 : ℚ) ≤ 0) := by decide
  simp [handle_standx_order_fill, hco, place_close_order, fillEnvW, cfgW, fillW, hmp]

/-- C4 amended: the control-loop path places no close order while one is
tracked, still active and not being adjusted; but `handle_standx_order_fill`
performs no tracking check at all — its emitted actions are identical
whatever the existing close tracking is, so the post-hedge path places a
close order unconditionally. -/
theorem close_order_creation_checks (cfg : BotConfig) (st : MainState) (env : ManageEnv)
    (risk : RiskState) (tr tr2 : CloseTracking) (d : FillData) (fenv : FillEnv) :
    (∀ c p s realId,
       st.tracking.closeOrderClOrdId = some c → c ≠ "" →
       st.tracking.closeOrderPrice = some p → p ≠ 0 →
       st.tracking.closeOrderSide = some s → s ≠ "" →
       findByClOrdId env.activeOrders c = some realId →
       needsAdjustment s p env.markPrice cfg.closeUpdateThreshold = false →
       (check_and_manage_close_orders cfg st env).2.countP MAction.isPlaceOrder = 0) ∧
    (handle_standx_order_fill cfg risk tr d fenv).2.2
      = (handle_standx_order_fill cfg risk tr2 d fenv).2.2 := by
  constructor
  · intro c p s realId hc hcne hpp hpne hss hsne hfind hna
    obtain ⟨⟨cid, ccl, cp, cs⟩, ca, cb⟩ := st
    obtain rfl : ccl = some c := hc
    obtain rfl : cp = some p := hpp
    obtain rfl : cs = some s := hss
    unfold check_and_manage_close_orders
    by_cases h0 : env.standxPos = 0 ∧ env.lighterPos = 0
    · rw [if_pos h0]
      rfl
    · rw [if_neg h0, if_neg (by simp [optStrTruthy, hcne])]
      dsimp only
      rw [if_neg (by rintro (h | h); exact hpne h; exact hsne h)]
      by_cases h3 : env.markPrice ≤ 0
      · rw [if_pos h3]
        rfl
      · rw [if_neg h3, hfind]
        unfold manage_found
        rw [hna]
        by_cases h4 : cid = none <;>
          simp [h4, List.countP_cons, MAction.isPlaceOrder]
  · unfold handle_standx_order_fill
    by_cases h1 : can_open_position risk d.qty = true
    · by_cases h2 : cfg.hedgeImmediately = true
      · by_cases h3 : fenv.hedgeSuccess = true
        · simp only [h1, h2, h3, if_pos, if_true, not_true_eq_false, if_false]
          rw [place_close_acts_indep cfg fenv.closeEnv _ d.qty tr tr2]
        · simp [h1, h2, h3]
      · simp [h1, h2]
    · simp [h1]

/-- C4 witness: with the tracked close order alive and no favorable move, the
tick places nothing; and the post-hedge path's actions with tracking present
equal those with no tracking. -/
theorem close_order_creation_checks_witness :
    (check_and_manage_close_orders cfgW stTrackedW envNoAdjustW).2.countP
        MAction.isPlaceOrder = 0 ∧
    (handle_standx_order_fill cfgW riskW trTrackedW fillW fillEnvW).2.2
      = (handle_standx_order_fill cfgW riskW CloseTracking.cleared fillW fillEnvW).2.2 :=
  ⟨(close_order_creation_checks cfgW stTrackedW envNoAdjustW riskW trTrackedW
      CloseTracking.cleared fillW fillEnvW).1 "sell_1700" 99000 "sell" "55" rfl (by decide)
      rfl (by decide) rfl (by decide) (by decide)
      (needsAdjustment_sell_unfavorable 99000 98000 cfgW.closeUpdateThreshold (by decide)),
   (close_order_creation_checks cfgW stTrackedW envNoAdjustW riskW trTrackedW
      CloseTracking.cleared fillW fillEnvW).2⟩

theorem mem_removeBlocked (l : List ℤ) (key x : ℤ) :
    x ∈ removeBlocked l key ↔ x ∈ l ∧ x ≠ key := by
  induction l with
  | nil => simp [removeBlocked]
  | cons y rest ih =>
    simp only [removeBlocked]
    by_cases h : y = key
    · rw [if_pos h, ih]
      subst h
      constructor
      · rintro ⟨hx, hne⟩
        exact ⟨List.mem_cons_of_mem _ hx, hne⟩
      · rintro ⟨hx, hne⟩
        rcases List.mem_cons.mp hx with rfl | hx2
        · exact absurd rfl hne
        · exact ⟨hx2, hne⟩
    · rw [if_neg h]
      constructor
      · intro hx
        rcases List.mem_cons.mp hx with rfl | hx2
        · exact ⟨List.mem_cons_self _ _, h⟩
        · obtain ⟨hr, hne⟩ := ih.mp hx2
          exact ⟨List.mem_cons_of_mem _ hr, hne⟩
      · rintro ⟨hx, hne⟩
        rcases List.mem_cons.mp hx with rfl | hx2
        · exact List.mem_cons_self _ _
        · exact List.mem_cons_of_mem _ (ih.mpr ⟨hx2, hne⟩)

/-- The still-tracked branch never changes the blocked set. -/
theorem manage_found_blocked (cfg : BotConfig) (st : MainState) (env : ManageEnv)
    (p : ℚ) (s : String) (r : String) :
    (manage_found cfg st env p s r).1.blocked = st.blocked := by
  unfold manage_found
  by_cases h1 : st.tracking.closeOrderId = none <;>
  by_cases h2 : needsAdjustment s p env.markPrice cfg.closeUpdateThreshold = true <;>
  by_cases h3 : 0 < env.standxPos <;>
  by_cases h4 : env.standxPos < 0 <;>
    simp [h1, h2, h3, h4]

/-- The vanished-close-order branch never changes the blocked set. -/
theorem manage_gone_blocked (cfg : BotConfig) (st : MainState) (env : ManageEnv) :
    (manage_gone cfg st env).1.blocked = st.blocked := by
  unfold manage_gone
  by_cases h1 : env.standxPosAfter = 0 <;>
  by_cases h2 : 0 < env.standxPosAfter <;>
    simp [h1, h2]

/-- The residual branch never unblocks an already-blocked size. -/
theorem manage_residual_blocked_mono (cfg : BotConfig) (st : MainState) (env : ManageEnv)
    (k : ℤ) (hk : k ∈ st.blocked) :
    k ∈ (manage_residual cfg st env).1.blocked := by
  unfold manage_residual
  by_cases h1 : 0 < env.standxPos
  · rw [if_pos h1]
    exact hk
  · rw [if_neg h1]
    by_cases h2 : env.standxPos < 0
    · rw [if_pos h2]
      exact hk
    · rw [if_neg h2]
      by_cases h3 : env.standxPos = 0 ∧ env.lighterPos ≠ 0
      · rw [if_pos h3]
        by_cases h4 : posKey env.lighterPos ∈ st.blocked
        · rw [if_pos h4]
          exact hk
        · rw [if_neg h4]
          by_cases h5 : max_close_attempts ≤
              lookupAttempts st.closeAttempts (posKey env.lighterPos)
          · rw [if_pos h5]
            exact List.mem_cons_of_mem _ hk
          · rw [if_neg h5]
            by_cases h6 : env.lighterPosAfterClose = 0
            · rw [if_pos h6]
              exact (mem_removeBlocked _ _ _).mpr ⟨hk, fun he => h4 (he ▸ hk)⟩
            · rw [if_neg h6]
              exact hk
      · rw [if_neg h3]
        exact hk

/-- C5 counterexample: with residual Lighter size 0.001 blocked after
exhausted attempts, a later control-loop tick on which a stale close order
has just disappeared with the StandX position flat still invokes the Lighter
close routine for that very size — the blocked set is not consulted on this
path. -/
theorem blocked_size_closed_by_resolution_path :
    posKey q001 ∈ stBlockedTrackedW.blocked ∧
    (check_and_manage_close_orders cfgW stBlockedTrackedW envGoneW).2
      = [MAction.closeLighterHedge q001] := by
  refine ⟨List.mem_cons_self _ _, ?_⟩
  have h1 : q001 ≠ 0 := by decide
  have h2 : ¬ ((100000 : ℚ) ≤ 0) := by decide
  simp [check_and_manage_close_orders, manage_gone, stBlockedTrackedW, trTrackedW,
        envGoneW, optStrTruthy, findByClOrdId, h1, h2]

/-- C5 amended: the residual-position recovery path (the path that maintains
the attempt counter) never acts on a blocked size; a size whose attempt
counter has reached the ceiling of 10 is added to the blocked set with no
close attempt; and no control-loop tick ever removes a blocked size — only
the close-order-resolution path can still close it, since it bypasses the
blocked set. -/
theorem residual_close_loop_protection (cfg : BotConfig) (st : MainState)
    (env : ManageEnv) :
    (env.standxPos = 0 → env.lighterPos ≠ 0 →
       optStrTruthy st.tracking.closeOrderClOrdId = false →
       posKey env.lighterPos ∈ st.blocked →
       check_and_manage_close_orders cfg st env = (st, [])) ∧
    (env.standxPos = 0 → env.lighterPos ≠ 0 →
       optStrTruthy st.tracking.closeOrderClOrdId = false →
       posKey env.lighterPos ∉ st.blocked →
       max_close_attempts ≤ lookupAttempts st.closeAttempts (posKey env.lighterPos) →
       check_and_manage_close_orders cfg st env
         = ({ st with blocked := posKey env.lighterPos :: st.blocked }, [])) ∧
    (∀ k, k ∈ st.blocked → k ∈ (check_and_manage_close_orders cfg st env).1.blocked) := by
  refine ⟨?_, ?_, ?_⟩
  · intro h1 h2 h3 h4
    unfold check_and_manage_close_orders
    rw [if_neg (fun hc => h2 hc.2), if_pos (by simp [h3])]
    unfold manage_residual
    rw [if_neg (by simp [h1]), if_neg (by simp [h1]), if_pos ⟨h1, h2⟩, if_pos h4]
  · intro h1 h2 h3 h4 h5
    unfold check_and_manage_close_orders
    rw [if_neg (fun hc => h2 hc.2), if_pos (by simp [h3])]
    unfold manage_residual
    rw [if_neg (by simp [h1]), if_neg (by simp [h1]), if_pos ⟨h1, h2⟩, if_neg h4, if_pos h5]
  · intro k hk
    obtain ⟨⟨cid, ccl, cp, cs⟩, ca, cb⟩ := st
    unfold check_and_manage_close_orders
    by_cases h0 : env.standxPos = 0 ∧ env.lighterPos = 0
    · rw [if_pos h0]
      dsimp only
      by_cases hT : optStrTruthy ccl = true <;> simp [hT] <;> exact hk
    · rw [if_neg h0]
      by_cases h1 : optStrTruthy ccl = true
      · rw [if_neg (by simp [h1])]
        cases ccl with
        | none => simp [optStrTruthy] at h1
        | some c =>
          cases cp with
          | none => exact hk
          | some p =>
            cases cs with
            | none => exact hk
            | some s =>
              dsimp only
              by_cases h2 : p = 0 ∨ s = ""
              · rw [if_pos h2]
                exact hk
              · rw [if_neg h2]
                by_cases h3 : env.markPrice ≤ 0
                · rw [if_pos h3]
                  exact hk
                · rw [if_neg h3]
                  generalize findByClOrdId env.activeOrders c = F
                  cases F with
                  | none =>
                    rw [manage_gone_blocked]
                    exact hk
                  | some realId =>
                    rw [manage_found_blocked]
                    exact hk
      · rw [if_pos (by simpa using h1)]
        exact manage_residual_blocked_mono cfg _ env k hk

/-- C5 witness: a blocked residual size is skipped by the recovery path, and
ten exhausted attempts block the size with no further attempt. -/
theorem residual_close_loop_protection_witness :
    check_and_manage_close_orders cfgW stBlockedW envGoneW = (stBlockedW, []) ∧
    check_and_manage_close_orders cfgW stExhaustedW envGoneW
      = ({ stExhaustedW with
             blocked := posKey envGoneW.lighterPos :: stExhaustedW.blocked }, []) :=
  ⟨(residual_close_loop_protection cfgW stBlockedW envGoneW).1 rfl (by decide) rfl
      (List.mem_cons_self _ _),
   (residual_close_loop_protection cfgW stExhaustedW envGoneW).2.1 rfl (by decide) rfl
      (by simp [stExhaustedW])
      (by simp [stExhaustedW, envGoneW, lookupAttempts, max_close_attempts])⟩

theorem mkRat_offset_val : (mkRat 1 10000 : ℚ) = 1 / 10000 := by
  rw [Rat.mkRat_eq_divInt, Rat.divInt_eq_div]
  norm_num

/-- C9 counterexample: with mark price 100 and the default offset fraction
0.0001, the sell-to-close price is `int(100.01) = 100` — equal to, not
strictly above, the mark — and the buy-to-close price is `int(99.99) = 99`,
not the exact offset 99.99 the claim states. -/
theorem close_price_not_exact_offset :
    close_order_price "sell" 100 (mkRat 1 10000) = 100 ∧
    ¬ (100 : ℚ) < close_order_price "sell" 100 (mkRat 1 10000) ∧
    close_order_price "buy" 100 (mkRat 1 10000) = 99 ∧
    close_order_price "buy" 100 (mkRat 1 10000) ≠ 100 - 100 * mkRat 1 10000 := by
  have hs : close_order_price "sell" 100 (mkRat 1 10000) = 100 := by
    unfold close_order_price pyTrunc
    rw [if_neg (by simp), if_pos (by rw [mkRat_offset_val]; norm_num)]
    have hf : ⌊(100 : ℚ) + 100 * mkRat 1 10000⌋ = 100 := by
      rw [mkRat_offset_val, Int.floor_eq_iff] <;> norm_num
    rw [hf]
    norm_num
  have hb : close_order_price "buy" 100 (mkRat 1 10000) = 99 := by
    unfold close_order_price pyTrunc
    rw [if_pos rfl, if_pos (by rw [mkRat_offset_val]; norm_num)]
    have hf : ⌊(100 : ℚ) - 100 * mkRat 1 10000⌋ = 99 := by
      rw [mkRat_offset_val, Int.floor_eq_iff] <;> norm_num
    rw [hf]
    norm_num
  refine ⟨hs, by rw [hs]; exact lt_irrefl _, hb, by rw [hb, mkRat_offset_val]; norm_num⟩

/-- C9 amended: close-order prices are the integer truncation of the offset
price: a buy-to-close order is priced at `int(m - m*f)`, strictly below a
positive mark for any positive offset; a sell-to-close order is priced at
`int(m + m*f)`, which lies between `⌊m⌋` and `m + m*f` and is strictly above
the mark whenever `m*f ≥ 1` (as with BTC-scale marks and the default offset),
but not in general. -/
theorem close_price_offset_truncated (m f : ℚ) :
    (0 < m → 0 < f → close_order_price "buy" m f < m) ∧
    (0 < m → 0 ≤ f → ((⌊m⌋ : ℚ) ≤ close_order_price "sell" m f ∧
                       close_order_price "sell" m f ≤ m + m * f)) ∧
    (0 < m → 1 ≤ m * f → m < close_order_price "sell" m f) := by
  refine ⟨?_, ?_, ?_⟩
  · intro hm hf
    unfold close_order_price pyTrunc
    rw [if_pos rfl]
    have hmf : 0 < m * f := mul_pos hm hf
    by_cases hpos : 0 ≤ m - m * f
    · rw [if_pos hpos]
      have h1 := Int.floor_le (m - m * f)
      linarith
    · rw [if_neg hpos]
      push_neg at hpos
      have h1 : (⌈m - m * f⌉ : ℤ) ≤ 0 := Int.ceil_le.mpr (by push_cast; linarith)
      have h2 : ((⌈m - m * f⌉ : ℤ) : ℚ) ≤ 0 := by exact_mod_cast h1
      linarith
  · intro hm hf
    unfold close_order_price pyTrunc
    have hmf : 0 ≤ m * f := mul_nonneg hm.le hf
    rw [if_neg (by simp), if_pos (by linarith)]
    constructor
    · exact_mod_cast Int.floor_le_floor (by linarith : m ≤ m + m * f)
    · have h1 := Int.floor_le (m + m * f)
      linarith
  · intro hm hmf
    unfold close_order_price pyTrunc
    rw [if_neg (by simp), if_pos (by linarith)]
    have h1 : ⌊m + (1 : ℚ)⌋ ≤ ⌊m + m * f⌋ := Int.floor_le_floor (by linarith)
    have h2 : ⌊m + (1 : ℚ)⌋ = ⌊m⌋ + 1 := by
      rw [show (1 : ℚ) = ((1 : ℤ) : ℚ) by norm_num, Int.floor_add_int]
    have h3 : m < (⌊m⌋ : ℚ) + 1 := Int.lt_floor_add_one m
    have h4 : ((⌊m⌋ + 1 : ℤ) : ℚ) ≤ (⌊m + m * f⌋ : ℚ) := by
      exact_mod_cast h2 ▸ h1
    push_cast at h4
    linarith

theorem offset_ge_one_at_90416 : (1 : ℚ) ≤ 90416 * mkRat 1 10000 := by
  rw [mkRat_offset_val]
  norm_num

/-- C9 witness: at the scenario mark 90416 with the default offset, the
sell-to-close price is strictly above the mark. -/
theorem close_price_offset_truncated_witness :
    (0 : ℚ) < 90416 ∧ (1 : ℚ) ≤ 90416 * mkRat 1 10000 ∧
    (90416 : ℚ) < close_order_price "sell" 90416 (mkRat 1 10000) :=
  ⟨by decide, offset_ge_one_at_90416,
   (close_price_offset_truncated 90416 (mkRat 1 10000)).2.2 (by decide)
     offset_ge_one_at_90416⟩

end StandXHedger
